import Mathlib

/-!
Verification of the socket interposition shim `lib/sockets/interpose.c`
of the TAS (TCP acceleration service) repository.

The development has three parts:

1. A dispatcher model: every interposed C entry point (`socket`, `close`,
   ..., `epoll_pwait`) is embedded as one branch of `Interpose.run`, which
   returns both the call result and the trace of backend events the C body
   performs, given an abstract world describing what the `tas_*` and
   `libc_*` backends would return.

2. A functional model of `init`/`bind_symbol`: symbol resolution over an
   abstract `dlsym` environment, returning `Except` to model `abort()`.

3. An interleaving small-step machine for `ensure_init` (the `init_cnt` /
   `init_done` / thread-local `in_init` protocol), with one program point
   per statement of the C source, used for the concurrency claims.
-/

namespace Interpose

/-- The interposed operation names (the 22 with `libc_*` pointers, plus the
epoll family, which has no native pointer in the source). -/
inductive Op where
  | socket
  | close
  | shutdown
  | bind
  | connect
  | listen
  | accept4
  | accept
  | fcntl
  | getsockopt
  | setsockopt
  | getsockname
  | getpeername
  | read
  | recv
  | recvfrom
  | recvmsg
  | write
  | send
  | sendto
  | sendmsg
  | select
  | epoll_create
  | epoll_create1
  | epoll_ctl
  | epoll_wait
  | epoll_pwait
  deriving DecidableEq

/-- Linux `AF_INET`. -/
def AF_INET : Int := 2

/-- Linux `SOCK_STREAM`. -/
def SOCK_STREAM : Int := 1

/-- Linux `EBADF`, the "descriptor not recognized" sentinel. -/
def EBADF : Int := 9

/-- The outcome of a backend call: the C return value together with the
value `errno` holds after the call. -/
structure CallResult where
  ret : Int
  errno : Int
  deriving DecidableEq

/-- Abstract behaviour of the two backends.  `tas` gives the result of the
`tas_*` entry point for an operation and argument list, `libc` the result
of the dlsym-resolved native implementation.  `vaGarbage` is the
indeterminate `int` that `va_arg` yields when the caller passed no
variadic argument. -/
structure World where
  tas : Op → List Int → CallResult
  libc : Op → List Int → CallResult
  vaGarbage : Int

/-- Observable events of one interposed call: the `ensure_init()`
invocation, and each backend invocation with the argument list passed to
it (pointers are modelled as opaque integers). -/
inductive Event where
  | ensureInit
  | tasCall (op : Op) (args : List Int)
  | libcCall (op : Op) (args : List Int)
  deriving DecidableEq

/-- Whether an event is an invocation of the native backend. -/
def isLibcCall : Event → Bool
  | .libcCall _ _ => true
  | _ => false

/-- One intercepted call with its C arguments.  Pointer-typed arguments
(`struct sockaddr *`, buffers, `msghdr`, fd sets, ...) are opaque integer
values; they are only passed through, never dereferenced, by the shim. -/
inductive Call where
  | socket (domain type protocol : Int)
  | close (sockfd : Int)
  | shutdown (sockfd how : Int)
  | bind (sockfd addr addrlen : Int)
  | connect (sockfd addr addrlen : Int)
  | listen (sockfd backlog : Int)
  | accept4 (sockfd addr addrlen flags : Int)
  | accept (sockfd addr addrlen : Int)
  | fcntl (sockfd cmd : Int) (varargs : List Int)
  | getsockopt (sockfd level optname optval optlen : Int)
  | setsockopt (sockfd level optname optval optlen : Int)
  | getsockname (sockfd addr addrlen : Int)
  | getpeername (sockfd addr addrlen : Int)
  | read (sockfd buf count : Int)
  | recv (sockfd buf len flags : Int)
  | recvfrom (sockfd buf len flags src_addr addrlen : Int)
  | recvmsg (sockfd msg flags : Int)
  | write (sockfd buf count : Int)
  | send (sockfd buf len flags : Int)
  | sendto (sockfd buf len flags dest_addr addrlen : Int)
  | sendmsg (sockfd msg flags : Int)
  | select (nfds readfds writefds exceptfds timeout : Int)
  | epoll_create (size : Int)
  | epoll_create1 (flags : Int)
  | epoll_ctl (epfd op fd event : Int)
  | epoll_wait (epfd events maxevents timeout : Int)
  | epoll_pwait (epfd events maxevents timeout sigmask : Int)
  deriving DecidableEq

/-- The operation a call belongs to. -/
def Call.op : Call → Op
  | .socket .. => .socket
  | .close .. => .close
  | .shutdown .. => .shutdown
  | .bind .. => .bind
  | .connect .. => .connect
  | .listen .. => .listen
  | .accept4 .. => .accept4
  | .accept .. => .accept
  | .fcntl .. => .fcntl
  | .getsockopt .. => .getsockopt
  | .setsockopt .. => .setsockopt
  | .getsockname .. => .getsockname
  | .getpeername .. => .getpeername
  | .read .. => .read
  | .recv .. => .recv
  | .recvfrom .. => .recvfrom
  | .recvmsg .. => .recvmsg
  | .write .. => .write
  | .send .. => .send
  | .sendto .. => .sendto
  | .sendmsg .. => .sendmsg
  | .select .. => .select
  | .epoll_create .. => .epoll_create
  | .epoll_create1 .. => .epoll_create1
  | .epoll_ctl .. => .epoll_ctl
  | .epoll_wait .. => .epoll_wait
  | .epoll_pwait .. => .epoll_pwait

/-- The argument list that the C body hands to a backend for this call.
For `fcntl` this is the single variadic argument read by `va_arg(val, int)`
(the indeterminate `vaGarbage` if the caller passed none); all other
operations pass their parameters through unchanged. -/
def Call.backendArgs : Call → World → List Int
  | .socket domain type protocol, _ => [domain, type, protocol]
  | .close sockfd, _ => [sockfd]
  | .shutdown sockfd how, _ => [sockfd, how]
  | .bind sockfd addr addrlen, _ => [sockfd, addr, addrlen]
  | .connect sockfd addr addrlen, _ => [sockfd, addr, addrlen]
  | .listen sockfd backlog, _ => [sockfd, backlog]
  | .accept4 sockfd addr addrlen flags, _ => [sockfd, addr, addrlen, flags]
  | .accept sockfd addr addrlen, _ => [sockfd, addr, addrlen]
  | .fcntl sockfd cmd varargs, w => [sockfd, cmd, varargs.headD w.vaGarbage]
  | .getsockopt sockfd level optname optval optlen, _ =>
      [sockfd, level, optname, optval, optlen]
  | .setsockopt sockfd level optname optval optlen, _ =>
      [sockfd, level, optname, optval, optlen]
  | .getsockname sockfd addr addrlen, _ => [sockfd, addr, addrlen]
  | .getpeername sockfd addr addrlen, _ => [sockfd, addr, addrlen]
  | .read sockfd buf count, _ => [sockfd, buf, count]
  | .recv sockfd buf len flags, _ => [sockfd, buf, len, flags]
  | .recvfrom sockfd buf len flags src_addr addrlen, _ =>
      [sockfd, buf, len, flags, src_addr, addrlen]
  | .recvmsg sockfd msg flags, _ => [sockfd, msg, flags]
  | .write sockfd buf count, _ => [sockfd, buf, count]
  | .send sockfd buf len flags, _ => [sockfd, buf, len, flags]
  | .sendto sockfd buf len flags dest_addr addrlen, _ =>
      [sockfd, buf, len, flags, dest_addr, addrlen]
  | .sendmsg sockfd msg flags, _ => [sockfd, msg, flags]
  | .select nfds readfds writefds exceptfds timeout, _ =>
      [nfds, readfds, writefds, exceptfds, timeout]
  | .epoll_create size, _ => [size]
  | .epoll_create1 flags, _ => [flags]
  | .epoll_ctl epfd op fd event, _ => [epfd, op, fd, event]
  | .epoll_wait epfd events maxevents timeout, _ =>
      [epfd, events, maxevents, timeout]
  | .epoll_pwait epfd events maxevents timeout sigmask, _ =>
      [epfd, events, maxevents, timeout, sigmask]

/-- The operations whose C bodies use the `tas_* / EBADF / libc_*`
fallback pattern. -/
def fallbackOps : List Op :=
  [.close, .shutdown, .bind, .connect, .listen, .accept, .accept4, .fcntl,
   .getsockopt, .setsockopt, .getsockname, .getpeername,
   .read, .recv, .recvfrom, .recvmsg, .write, .send, .sendto, .sendmsg]

/-- The readiness-multiplexing operations. -/
def readinessOps : List Op :=
  [.select, .epoll_create, .epoll_create1, .epoll_ctl, .epoll_wait,
   .epoll_pwait]

/-- The body of each interposed C entry point, transcribed branch by
branch from `interpose.c`.  Returns the result handed back to the caller
(`ret` plus final `errno`) and the trace of events performed. -/
def run (w : World) : Call → CallResult × List Event
  | .socket domain type protocol =>
      if domain ≠ AF_INET ∨ type ≠ SOCK_STREAM then
        (w.libc .socket [domain, type, protocol],
          [.ensureInit, .libcCall .socket [domain, type, protocol]])
      else
        (w.tas .socket [domain, type, protocol],
          [.ensureInit, .tasCall .socket [domain, type, protocol]])
  | .close sockfd =>
      let r := w.tas .close [sockfd]
      if r.ret = -1 ∧ r.errno = EBADF then
        (w.libc .close [sockfd],
          [.ensureInit, .tasCall .close [sockfd], .libcCall .close [sockfd]])
      else
        (r, [.ensureInit, .tasCall .close [sockfd]])
  | .shutdown sockfd how =>
      let r := w.tas .shutdown [sockfd, how]
      if r.ret = -1 ∧ r.errno = EBADF then
        (w.libc .shutdown [sockfd, how],
          [.ensureInit, .tasCall .shutdown [sockfd, how],
           .libcCall .shutdown [sockfd, how]])
      else
        (r, [.ensureInit, .tasCall .shutdown [sockfd, how]])
  | .bind sockfd addr addrlen =>
      let r := w.tas .bind [sockfd, addr, addrlen]
      if r.ret = -1 ∧ r.errno = EBADF then
        (w.libc .bind [sockfd, addr, addrlen],
          [.ensureInit, .tasCall .bind [sockfd, addr, addrlen],
           .libcCall .bind [sockfd, addr, addrlen]])
      else
        (r, [.ensureInit, .tasCall .bind [sockfd, addr, addrlen]])
  | .connect sockfd addr addrlen =>
      let r := w.tas .connect [sockfd, addr, addrlen]
      if r.ret = -1 ∧ r.errno = EBADF then
        (w.libc .connect [sockfd, addr, addrlen],
          [.ensureInit, .tasCall .connect [sockfd, addr, addrlen],
           .libcCall .connect [sockfd, addr, addrlen]])
      else
        (r, [.ensureInit, .tasCall .connect [sockfd, addr, addrlen]])
  | .listen sockfd backlog =>
      let r := w.tas .listen [sockfd, backlog]
      if r.ret = -1 ∧ r.errno = EBADF then
        (w.libc .listen [sockfd, backlog],
          [.ensureInit, .tasCall .listen [sockfd, backlog],
           .libcCall .listen [sockfd, backlog]])
      else
        (r, [.ensureInit, .tasCall .listen [sockfd, backlog]])
  | .accept4 sockfd addr addrlen flags =>
      let r := w.tas .accept4 [sockfd, addr, addrlen, flags]
      if r.ret = -1 ∧ r.errno = EBADF then
        (w.libc .accept4 [sockfd, addr, addrlen, flags],
          [.ensureInit, .tasCall .accept4 [sockfd, addr, addrlen, flags],
           .libcCall .accept4 [sockfd, addr, addrlen, flags]])
      else
        (r, [.ensureInit, .tasCall .accept4 [sockfd, addr, addrlen, flags]])
  | .accept sockfd addr addrlen =>
      let r := w.tas .accept [sockfd, addr, addrlen]
      if r.ret = -1 ∧ r.errno = EBADF then
        (w.libc .accept [sockfd, addr, addrlen],
          [.ensureInit, .tasCall .accept [sockfd, addr, addrlen],
           .libcCall .accept [sockfd, addr, addrlen]])
      else
        (r, [.ensureInit, .tasCall .accept [sockfd, addr, addrlen]])
  | .fcntl sockfd cmd varargs =>
      let arg := varargs.headD w.vaGarbage
      let r := w.tas .fcntl [sockfd, cmd, arg]
      if r.ret = -1 ∧ r.errno = EBADF then
        (w.libc .fcntl [sockfd, cmd, arg],
          [.ensureInit, .tasCall .fcntl [sockfd, cmd, arg],
           .libcCall .fcntl [sockfd, cmd, arg]])
      else
        (r, [.ensureInit, .tasCall .fcntl [sockfd, cmd, arg]])
  | .getsockopt sockfd level optname optval optlen =>
      let r := w.tas .getsockopt [sockfd, level, optname, optval, optlen]
      if r.ret = -1 ∧ r.errno = EBADF then
        (w.libc .getsockopt [sockfd, level, optname, optval, optlen],
          [.ensureInit,
           .tasCall .getsockopt [sockfd, level, optname, optval, optlen],
           .libcCall .getsockopt [sockfd, level, optname, optval, optlen]])
      else
        (r, [.ensureInit,
             .tasCall .getsockopt [sockfd, level, optname, optval, optlen]])
  | .setsockopt sockfd level optname optval optlen =>
      let r := w.tas .setsockopt [sockfd, level, optname, optval, optlen]
      if r.ret = -1 ∧ r.errno = EBADF then
        (w.libc .setsockopt [sockfd, level, optname, optval, optlen],
          [.ensureInit,
           .tasCall .setsockopt [sockfd, level, optname, optval, optlen],
           .libcCall .setsockopt [sockfd, level, optname, optval, optlen]])
      else
        (r, [.ensureInit,
             .tasCall .setsockopt [sockfd, level, optname, optval, optlen]])
  | .getsockname sockfd addr addrlen =>
      let r := w.tas .getsockname [sockfd, addr, addrlen]
      if r.ret = -1 ∧ r.errno = EBADF then
        (w.libc .getsockname [sockfd, addr, addrlen],
          [.ensureInit, .tasCall .getsockname [sockfd, addr, addrlen],
           .libcCall .getsockname [sockfd, addr, addrlen]])
      else
        (r, [.ensureInit, .tasCall .getsockname [sockfd, addr, addrlen]])
  | .getpeername sockfd addr addrlen =>
      let r := w.tas .getpeername [sockfd, addr, addrlen]
      if r.ret = -1 ∧ r.errno = EBADF then
        (w.libc .getpeername [sockfd, addr, addrlen],
          [.ensureInit, .tasCall .getpeername [sockfd, addr, addrlen],
           .libcCall .getpeername [sockfd, addr, addrlen]])
      else
        (r, [.ensureInit, .tasCall .getpeername [sockfd, addr, addrlen]])
  | .read sockfd buf count =>
      let r := w.tas .read [sockfd, buf, count]
      if r.ret = -1 ∧ r.errno = EBADF then
        (w.libc .read [sockfd, buf, count],
          [.ensureInit, .tasCall .read [sockfd, buf, count],
           .libcCall .read [sockfd, buf, count]])
      else
        (r, [.ensureInit, .tasCall .read [sockfd, buf, count]])
  | .recv sockfd buf len flags =>
      let r := w.tas .recv [sockfd, buf, len, flags]
      if r.ret = -1 ∧ r.errno = EBADF then
        (w.libc .recv [sockfd, buf, len, flags],
          [.ensureInit, .tasCall .recv [sockfd, buf, len, flags],
           .libcCall .recv [sockfd, buf, len, flags]])
      else
        (r, [.ensureInit, .tasCall .recv [sockfd, buf, len, flags]])
  | .recvfrom sockfd buf len flags src_addr addrlen =>
      let r := w.tas .recvfrom [sockfd, buf, len, flags, src_addr, addrlen]
      if r.ret = -1 ∧ r.errno = EBADF then
        (w.libc .recvfrom [sockfd, buf, len, flags, src_addr, addrlen],
          [.ensureInit,
           .tasCall .recvfrom [sockfd, buf, len, flags, src_addr, addrlen],
           .libcCall .recvfrom [sockfd, buf, len, flags, src_addr, addrlen]])
      else
        (r, [.ensureInit,
             .tasCall .recvfrom [sockfd, buf, len, flags, src_addr, addrlen]])
  | .recvmsg sockfd msg flags =>
      let r := w.tas .recvmsg [sockfd, msg, flags]
      if r.ret = -1 ∧ r.errno = EBADF then
        (w.libc .recvmsg [sockfd, msg, flags],
          [.ensureInit, .tasCall .recvmsg [sockfd, msg, flags],
           .libcCall .recvmsg [sockfd, msg, flags]])
      else
        (r, [.ensureInit, .tasCall .recvmsg [sockfd, msg, flags]])
  | .write sockfd buf count =>
      let r := w.tas .write [sockfd, buf, count]
      if r.ret = -1 ∧ r.errno = EBADF then
        (w.libc .write [sockfd, buf, count],
          [.ensureInit, .tasCall .write [sockfd, buf, count],
           .libcCall .write [sockfd, buf, count]])
      else
        (r, [.ensureInit, .tasCall .write [sockfd, buf, count]])
  | .send sockfd buf len flags =>
      let r := w.tas .send [sockfd, buf, len, flags]
      if r.ret = -1 ∧ r.errno = EBADF then
        (w.libc .send [sockfd, buf, len, flags],
          [.ensureInit, .tasCall .send [sockfd, buf, len, flags],
           .libcCall .send [sockfd, buf, len, flags]])
      else
        (r, [.ensureInit, .tasCall .send [sockfd, buf, len, flags]])
  | .sendto sockfd buf len flags dest_addr addrlen =>
      let r := w.tas .sendto [sockfd, buf, len, flags, dest_addr, addrlen]
      if r.ret = -1 ∧ r.errno = EBADF then
        (w.libc .sendto [sockfd, buf, len, flags, dest_addr, addrlen],
          [.ensureInit,
           .tasCall .sendto [sockfd, buf, len, flags, dest_addr, addrlen],
           .libcCall .sendto [sockfd, buf, len, flags, dest_addr, addrlen]])
      else
        (r, [.ensureInit,
             .tasCall .sendto [sockfd, buf, len, flags, dest_addr, addrlen]])
  | .sendmsg sockfd msg flags =>
      let r := w.tas .sendmsg [sockfd, msg, flags]
      if r.ret = -1 ∧ r.errno = EBADF then
        (w.libc .sendmsg [sockfd, msg, flags],
          [.ensureInit, .tasCall .sendmsg [sockfd, msg, flags],
           .libcCall .sendmsg [sockfd, msg, flags]])
      else
        (r, [.ensureInit, .tasCall .sendmsg [sockfd, msg, flags]])
  | .select nfds readfds writefds exceptfds timeout =>
      (w.tas .select [nfds, readfds, writefds, exceptfds, timeout],
        [.tasCall .select [nfds, readfds, writefds, exceptfds, timeout]])
  | .epoll_create size =>
      (w.tas .epoll_create [size], [.tasCall .epoll_create [size]])
  | .epoll_create1 flags =>
      (w.tas .epoll_create1 [flags], [.tasCall .epoll_create1 [flags]])
  | .epoll_ctl epfd op fd event =>
      (w.tas .epoll_ctl [epfd, op, fd, event],
        [.tasCall .epoll_ctl [epfd, op, fd, event]])
  | .epoll_wait epfd events maxevents timeout =>
      (w.tas .epoll_wait [epfd, events, maxevents, timeout],
        [.tasCall .epoll_wait [epfd, events, maxevents, timeout]])
  | .epoll_pwait epfd events maxevents timeout sigmask =>
      (w.tas .epoll_pwait [epfd, events, maxevents, timeout, sigmask],
        [.tasCall .epoll_pwait [epfd, events, maxevents, timeout, sigmask]])

/-! ### Part 2: `bind_symbol` and `init` (symbol resolution and startup) -/

/-- The 22 symbols resolved by `init()`, in the order of its assignments
to the `libc_*` pointers. -/
def initSyms : List Op :=
  [.socket, .close, .shutdown, .bind, .connect, .listen, .accept4, .accept,
   .fcntl, .getsockopt, .setsockopt, .getsockname, .getpeername,
   .read, .recv, .recvfrom, .recvmsg, .write, .send, .sendto, .sendmsg,
   .select]

/-- The two ways `init()` can abort the process. -/
inductive StartupFailure where
  | dlsymFailed (sym : Op)
  | tasInitFailed
  deriving DecidableEq

/-- Environment of `init()`: what `dlsym(RTLD_NEXT, sym)` yields for each
symbol (`none` models NULL) and the return value of `tas_init()`. -/
structure InitEnv where
  dlsym : Op → Option Nat
  tasInitRet : Int

/-- `bind_symbol`: resolve one symbol, aborting the process (error) if
`dlsym` returns NULL. -/
def bind_symbol (env : InitEnv) (sym : Op) : Except StartupFailure Nat :=
  match env.dlsym sym with
  | none => .error (.dlsymFailed sym)
  | some ptr => .ok ptr

/-- The sequence of `libc_* = bind_symbol("*")` assignments of `init()`,
performed left to right, stopping at the first abort. -/
def resolveAll (env : InitEnv) : List Op → Except StartupFailure (List (Op × Nat))
  | [] => .ok []
  | sym :: rest =>
      match bind_symbol env sym with
      | .error e => .error e
      | .ok ptr =>
          match resolveAll env rest with
          | .error e => .error e
          | .ok tbl => .ok ((sym, ptr) :: tbl)

/-- `init()`: resolve every symbol of `initSyms` in order, then call
`tas_init()`, aborting if it returns nonzero; on success the fully
populated handle table results. -/
def init (env : InitEnv) : Except StartupFailure (List (Op × Nat)) :=
  match resolveAll env initSyms with
  | .error e => .error e
  | .ok tbl => if env.tasInitRet ≠ 0 then .error .tasInitFailed else .ok tbl

/-! ### Part 3: the `ensure_init` machine

An interleaving small-step semantics of `ensure_init()` (and the `init()`
body it invokes), with one program point per statement of the C source.
Symbol resolution and `tas_init` are taken to succeed here; on failure the
process aborts and no later state exists (Part 2 models the aborts).
`MEM_BARRIER()` and the `volatile` accesses are modelled as the
sequentially consistent interleaving of the labelled steps. -/

/-- Program points of one thread inside `ensure_init` / `init`. -/
inductive Phase where
  | start
  | reentrantCheck
  | fetchAdd
  | setIn
  | binding (k : Nat)
  | tasInitCall
  | clearIn
  | membarrier
  | publish
  | waitLoop
  | finished
  deriving DecidableEq

/-- Whether a program point is inside the initializer branch
(`in_init = 1; init(); in_init = 0; MEM_BARRIER(); init_done = 1;`). -/
def Phase.initing : Phase → Bool
  | .setIn | .binding _ | .tasInitCall | .clearIn | .membarrier
  | .publish => true
  | _ => false

/-- One thread: its program point and its thread-local `in_init` flag. -/
structure TState where
  phase : Phase
  in_init : Bool
  deriving DecidableEq

/-- The shared state: `init_cnt`, `init_done`, the `libc_*` pointers
already assigned (in assignment order), and a history counter of how many
times the initializer branch has been entered. -/
structure GState where
  init_cnt : Nat
  init_done : Bool
  table : List Op
  initEntered : Nat
  deriving DecidableEq

/-- One step of one thread: `TStep g t g' t'` relates shared state and
thread state before and after executing the statement at `t.phase`. -/
inductive TStep : GState → TState → GState → TState → Prop where
  | fastPath (g : GState) (b : Bool) : g.init_done = true →
      TStep g ⟨.start, b⟩ g ⟨.finished, b⟩
  | slowPath (g : GState) (b : Bool) : g.init_done = false →
      TStep g ⟨.start, b⟩ g ⟨.reentrantCheck, b⟩
  | reentrantReturn (g : GState) :
      TStep g ⟨.reentrantCheck, true⟩ g ⟨.finished, true⟩
  | notReentrant (g : GState) :
      TStep g ⟨.reentrantCheck, false⟩ g ⟨.fetchAdd, false⟩
  | fetchAddZero (g : GState) (b : Bool) : g.init_cnt = 0 →
      TStep g ⟨.fetchAdd, b⟩
        { g with init_cnt := g.init_cnt + 1,
                 initEntered := g.initEntered + 1 }
        ⟨.setIn, b⟩
  | fetchAddPos (g : GState) (b : Bool) : g.init_cnt ≠ 0 →
      TStep g ⟨.fetchAdd, b⟩ { g with init_cnt := g.init_cnt + 1 }
        ⟨.waitLoop, b⟩
  | setInInit (g : GState) (b : Bool) :
      TStep g ⟨.setIn, b⟩ g ⟨.binding 0, true⟩
  | bindOne (g : GState) (b : Bool) (k : Nat) (h : k < initSyms.length) :
      TStep g ⟨.binding k, b⟩
        { g with table := g.table ++ [initSyms.get ⟨k, h⟩] }
        ⟨.binding (k + 1), b⟩
  | bindRest (g : GState) (b : Bool) :
      TStep g ⟨.binding initSyms.length, b⟩ g ⟨.tasInitCall, b⟩
  | tasInitOk (g : GState) (b : Bool) :
      TStep g ⟨.tasInitCall, b⟩ g ⟨.clearIn, b⟩
  | clearInInit (g : GState) (b : Bool) :
      TStep g ⟨.clearIn, b⟩ g ⟨.membarrier, false⟩
  | memBarrier (g : GState) (b : Bool) :
      TStep g ⟨.membarrier, b⟩ g ⟨.publish, b⟩
  | publishDone (g : GState) (b : Bool) :
      TStep g ⟨.publish, b⟩ { g with init_done := true } ⟨.finished, b⟩
  | spinYield (g : GState) (b : Bool) : g.init_done = false →
      TStep g ⟨.waitLoop, b⟩ g ⟨.waitLoop, b⟩
  | spinExit (g : GState) (b : Bool) : g.init_done = true →
      TStep g ⟨.waitLoop, b⟩ g ⟨.finished, b⟩

/-- A system of `n` threads sharing one `GState`. -/
abbrev SysConfig (n : Nat) := GState × (Fin n → TState)

/-- A system step: some thread takes a `TStep`. -/
inductive SysStep (n : Nat) : SysConfig n → SysConfig n → Prop where
  | step (g : GState) (ts : Fin n → TState) (i : Fin n) (g' : GState)
      (t' : TState) : TStep g (ts i) g' t' →
      SysStep n (g, ts) (g', Function.update ts i t')

/-- The initial configuration: all statics zeroed, every thread about to
execute its first intercepted call with `in_init = 0`. -/
def startConfig (n : Nat) : SysConfig n :=
  (⟨0, false, [], 0⟩, fun _ => ⟨.start, false⟩)

/-- Configurations reachable from the initial one. -/
inductive Reach (n : Nat) : SysConfig n → Prop where
  | refl : Reach n (startConfig n)
  | tail {c c' : SysConfig n} : Reach n c → SysStep n c c' → Reach n c'

/-! ### Invariants of the `ensure_init` machine -/

/-- Per-thread invariant tying a thread's program point to the shared
state: a thread inside the initializer branch has entered it exactly once,
sees `init_done` still clear, and the table holds exactly the symbols its
progress accounts for. -/
def ThreadInv (g : GState) (t : TState) : Prop :=
  match t.phase with
  | .setIn => g.initEntered = 1 ∧ g.table = [] ∧ g.init_done = false
  | .binding k => g.initEntered = 1 ∧ k ≤ initSyms.length ∧
      g.table = initSyms.take k ∧ g.init_done = false
  | .tasInitCall => g.initEntered = 1 ∧ g.table = initSyms ∧
      g.init_done = false
  | .clearIn => g.initEntered = 1 ∧ g.table = initSyms ∧
      g.init_done = false
  | .membarrier => g.initEntered = 1 ∧ g.table = initSyms ∧
      g.init_done = false
  | .publish => g.initEntered = 1 ∧ g.table = initSyms ∧
      g.init_done = false
  | _ => True

theorem threadInv_of_not_initing {g : GState} {t : TState}
    (h : t.phase.initing = false) : ThreadInv g t := by
  obtain ⟨p, b⟩ := t
  cases p <;> simp_all [Phase.initing, ThreadInv]

theorem threadInv_initing_facts {g : GState} {t : TState}
    (h : t.phase.initing = true) (hI : ThreadInv g t) :
    g.initEntered = 1 ∧ g.init_done = false := by
  obtain ⟨p, b⟩ := t
  cases p <;> simp_all [Phase.initing, ThreadInv]

theorem threadInv_congr {g g' : GState} {t : TState}
    (htab : g'.table = g.table) (hdone : g'.init_done = g.init_done)
    (hent : g'.initEntered = g.initEntered) (hI : ThreadInv g t) :
    ThreadInv g' t := by
  obtain ⟨p, b⟩ := t
  cases p <;> simp_all [ThreadInv]

/-- The global invariant of the machine. -/
def Inv {n : Nat} : SysConfig n → Prop
  | (g, ts) =>
      g.initEntered ≤ 1
      ∧ (g.init_cnt = 0 → g.initEntered = 0)
      ∧ (g.initEntered = 0 → g.table = [] ∧ g.init_done = false)
      ∧ (∀ i, ThreadInv g (ts i))
      ∧ (∀ i j, (ts i).phase.initing = true → (ts j).phase.initing = true →
          i = j)
      ∧ (g.init_done = true → g.initEntered = 1 ∧ g.table = initSyms)
      ∧ (∃ k, k ≤ initSyms.length ∧ g.table = initSyms.take k)

/-- Steps that leave table, done flag and entry counter unchanged and move
the acting thread to a non-initializer program point preserve `Inv`. -/
theorem inv_keep {n : Nat} {g g' : GState} {ts : Fin n → TState} {i : Fin n}
    {t' : TState} (hInv : Inv (n := n) (g, ts))
    (htab : g'.table = g.table) (hdone : g'.init_done = g.init_done)
    (hent : g'.initEntered = g.initEntered)
    (hcnt : g'.init_cnt = 0 → g.init_cnt = 0)
    (hni : t'.phase.initing = false) :
    Inv (n := n) (g', Function.update ts i t') := by
  obtain ⟨hA, hB, hC, hD, hE, hF, hG⟩ := hInv
  refine ⟨by rw [hent]; exact hA, ?_, ?_, ?_, ?_, ?_, ?_⟩
  · intro h; rw [hent]; exact hB (hcnt h)
  · intro h; rw [htab, hdone]; exact hC (hent ▸ h)
  · intro j
    rcases eq_or_ne j i with rfl | hji
    · rw [Function.update_same]; exact threadInv_of_not_initing hni
    · rw [Function.update_noteq hji]
      exact threadInv_congr htab hdone hent (hD j)
  · intro j k hj hk
    rcases eq_or_ne j i with rfl | hji
    · rw [Function.update_same] at hj; rw [hni] at hj; cases hj
    · rcases eq_or_ne k i with rfl | hki
      · rw [Function.update_same] at hk; rw [hni] at hk; cases hk
      · rw [Function.update_noteq hji] at hj
        rw [Function.update_noteq hki] at hk
        exact hE j k hj hk
  · intro h; rw [htab, hent]; exact hF (hdone ▸ h)
  · rw [htab]; exact hG

/-- Internal steps of the running initializer preserve `Inv`. -/
theorem inv_initstep {n : Nat} {g g' : GState} {ts : Fin n → TState}
    {i : Fin n} {t' : TState} (hInv : Inv (n := n) (g, ts))
    (hi : (ts i).phase.initing = true)
    (hcnt : g'.init_cnt = g.init_cnt)
    (hent : g'.initEntered = g.initEntered)
    (hdone : g'.init_done = g.init_done)
    (hTI : ThreadInv g' t')
    (hG : ∃ k, k ≤ initSyms.length ∧ g'.table = initSyms.take k) :
    Inv (n := n) (g', Function.update ts i t') := by
  obtain ⟨hA, hB, hC, hD, hE, hF, hG0⟩ := hInv
  obtain ⟨hent1, hdone0⟩ := threadInv_initing_facts hi (hD i)
  refine ⟨by rw [hent]; exact hA, ?_, ?_, ?_, ?_, ?_, hG⟩
  · intro h; rw [hent]; exact hB (hcnt ▸ h)
  · intro h; rw [hent, hent1] at h; cases h
  · intro j
    rcases eq_or_ne j i with rfl | hji
    · rw [Function.update_same]; exact hTI
    · rw [Function.update_noteq hji]
      refine threadInv_of_not_initing ?_
      rcases h : (ts j).phase.initing with _ | _
      · rfl
      · exact absurd (hE j i h hi) hji
  · intro j k hj hk
    have hj' : j = i := by
      by_contra hji
      rw [Function.update_noteq hji] at hj
      exact hji (hE j i hj hi)
    have hk' : k = i := by
      by_contra hki
      rw [Function.update_noteq hki] at hk
      exact hki (hE k i hk hi)
    rw [hj', hk']
  · intro h; rw [hdone, hdone0] at h; cases h

/-- `Inv` is preserved by every system step. -/
theorem inv_step {n : Nat} {c c' : SysConfig n} (hInv : Inv c)
    (hs : SysStep n c c') : Inv c' := by
  obtain ⟨g, ts, i, g', t', ht⟩ := hs
  generalize hts : ts i = t0 at ht
  cases ht with
  | fastPath b hg => exact inv_keep hInv rfl rfl rfl (fun h => h) rfl
  | slowPath b hg => exact inv_keep hInv rfl rfl rfl (fun h => h) rfl
  | reentrantReturn => exact inv_keep hInv rfl rfl rfl (fun h => h) rfl
  | notReentrant => exact inv_keep hInv rfl rfl rfl (fun h => h) rfl
  | fetchAddPos b hg =>
      exact inv_keep hInv rfl rfl rfl
        (fun h => absurd h (Nat.succ_ne_zero _)) rfl
  | spinYield b hg => exact inv_keep hInv rfl rfl rfl (fun h => h) rfl
  | spinExit b hg => exact inv_keep hInv rfl rfl rfl (fun h => h) rfl
  | fetchAddZero b hg =>
      obtain ⟨hA, hB, hC, hD, hE, hF, hG⟩ := hInv
      have hent0 : g.initEntered = 0 := hB hg
      obtain ⟨htab0, hdone0⟩ := hC hent0
      have hnoinit : ∀ j, (ts j).phase.initing = false := by
        intro j
        rcases h : (ts j).phase.initing with _ | _
        · rfl
        · obtain ⟨h1, _⟩ := threadInv_initing_facts h (hD j)
          rw [hent0] at h1; cases h1
      refine ⟨?_, ?_, ?_, ?_, ?_, ?_, ?_⟩
      · show g.initEntered + 1 ≤ 1
        omega
      · intro h
        exact absurd h (Nat.succ_ne_zero _)
      · intro h
        exact absurd h (Nat.succ_ne_zero _)
      · intro j
        rcases eq_or_ne j i with rfl | hji
        · rw [Function.update_same]
          show g.initEntered + 1 = 1 ∧ g.table = [] ∧ g.init_done = false
          exact ⟨by omega, htab0, hdone0⟩
        · rw [Function.update_noteq hji]
          exact threadInv_of_not_initing (hnoinit j)
      · intro j k hj hk
        have hj' : j = i := by
          by_contra hji
          rw [Function.update_noteq hji] at hj
          rw [hnoinit j] at hj; cases hj
        have hk' : k = i := by
          by_contra hki
          rw [Function.update_noteq hki] at hk
          rw [hnoinit k] at hk; cases hk
        rw [hj', hk']
      · intro h
        have h' : g.init_done = true := h
        rw [hdone0] at h'; cases h'
      · exact ⟨0, Nat.zero_le _, show g.table = initSyms.take 0 by
          rw [htab0, List.take_zero]⟩
  | setInInit b =>
      obtain ⟨hA, hB, hC, hD, hE, hF, hG⟩ := hInv
      have hTI := hD i
      rw [hts] at hTI
      obtain ⟨h1, h2, h3⟩ := hTI
      exact inv_initstep ⟨hA, hB, hC, hD, hE, hF, hG⟩ (by rw [hts]; rfl) rfl
        rfl rfl ⟨h1, Nat.zero_le _, by rw [h2, List.take_zero], h3⟩ hG
  | bindOne b k hk =>
      obtain ⟨hA, hB, hC, hD, hE, hF, hG⟩ := hInv
      have hTI := hD i
      rw [hts] at hTI
      obtain ⟨h1, h2, h3, h4⟩ := hTI
      have hstep : g.table ++ [initSyms.get ⟨k, hk⟩] = initSyms.take (k + 1) := by
        rw [h3, ← List.concat_eq_append]
        exact List.take_concat_get _ _ hk
      exact inv_initstep ⟨hA, hB, hC, hD, hE, hF, hG⟩ (by rw [hts]; rfl) rfl
        rfl rfl ⟨h1, hk, hstep, h4⟩ ⟨k + 1, hk, hstep⟩
  | bindRest b =>
      obtain ⟨hA, hB, hC, hD, hE, hF, hG⟩ := hInv
      have hTI := hD i
      rw [hts] at hTI
      obtain ⟨h1, h2, h3, h4⟩ := hTI
      have hfull : g.table = initSyms := by rw [h3, List.take_length]
      exact inv_initstep ⟨hA, hB, hC, hD, hE, hF, hG⟩ (by rw [hts]; rfl) rfl
        rfl rfl ⟨h1, hfull, h4⟩ ⟨initSyms.length, le_refl _, h3⟩
  | tasInitOk b =>
      obtain ⟨hA, hB, hC, hD, hE, hF, hG⟩ := hInv
      have hTI := hD i
      rw [hts] at hTI
      obtain ⟨h1, h2, h3⟩ := hTI
      exact inv_initstep ⟨hA, hB, hC, hD, hE, hF, hG⟩ (by rw [hts]; rfl) rfl
        rfl rfl ⟨h1, h2, h3⟩ hG
  | clearInInit b =>
      obtain ⟨hA, hB, hC, hD, hE, hF, hG⟩ := hInv
      have hTI := hD i
      rw [hts] at hTI
      obtain ⟨h1, h2, h3⟩ := hTI
      exact inv_initstep ⟨hA, hB, hC, hD, hE, hF, hG⟩ (by rw [hts]; rfl) rfl
        rfl rfl ⟨h1, h2, h3⟩ hG
  | memBarrier b =>
      obtain ⟨hA, hB, hC, hD, hE, hF, hG⟩ := hInv
      have hTI := hD i
      rw [hts] at hTI
      obtain ⟨h1, h2, h3⟩ := hTI
      exact inv_initstep ⟨hA, hB, hC, hD, hE, hF, hG⟩ (by rw [hts]; rfl) rfl
        rfl rfl ⟨h1, h2, h3⟩ hG
  | publishDone b =>
      obtain ⟨hA, hB, hC, hD, hE, hF, hG⟩ := hInv
      have hTI := hD i
      rw [hts] at hTI
      obtain ⟨h1, h2, h3⟩ := hTI
      have hnoinit : ∀ j, j ≠ i → (ts j).phase.initing = false := by
        intro j hji
        rcases h : (ts j).phase.initing with _ | _
        · rfl
        · exact absurd (hE j i h (by rw [hts]; rfl)) hji
      refine ⟨hA, fun h => hB h, ?_, ?_, ?_, ?_, ?_⟩
      · intro h
        have h' : g.initEntered = 0 := h
        rw [h1] at h'; cases h'
      · intro j
        rcases eq_or_ne j i with rfl | hji
        · rw [Function.update_same]
          exact trivial
        · rw [Function.update_noteq hji]
          exact threadInv_of_not_initing (hnoinit j hji)
      · intro j k hj hk
        rcases eq_or_ne j i with rfl | hji
        · rw [Function.update_same] at hj
          exact Bool.noConfusion hj
        · rw [Function.update_noteq hji, hnoinit j hji] at hj
          cases hj
      · intro _
        exact ⟨h1, h2⟩
      · exact ⟨initSyms.length, le_refl _,
          show g.table = initSyms.take initSyms.length by
            rw [h2, List.take_length]⟩

/-- `init_done` is never unset by any thread step. -/
theorem tstep_done_mono {g : GState} {t : TState} {g' : GState} {t' : TState}
    (ht : TStep g t g' t') (hd : g.init_done = true) : g'.init_done = true := by
  cases ht <;> first | exact hd | rfl

/-- Every reachable configuration satisfies `Inv`. -/
theorem inv_reach {n : Nat} {c : SysConfig n} (h : Reach n c) : Inv c := by
  induction h with
  | refl =>
      refine ⟨?_, ?_, ?_, ?_, ?_, ?_, ?_⟩
      · exact Nat.zero_le 1
      · intro _; rfl
      · intro _; exact ⟨rfl, rfl⟩
      · intro i; exact trivial
      · intro i j hi hj; cases hi
      · intro h; cases h
      · exact ⟨0, Nat.zero_le _, rfl⟩
  | tail _ hs ih => exact inv_step ih hs

/-! ### Concrete instances used in witness theorems -/

/-- A world in which the managed stack always reports the ownership
sentinel and the native backend returns 7. -/
def w0 : World where
  tas := fun _ _ => ⟨-1, EBADF⟩
  libc := fun _ _ => ⟨7, 0⟩
  vaGarbage := 0

/-! ### Claim theorems -/

/-- C1: for every operation of the fallback family and all arguments, the
interposed body calls `ensure_init` and then the `tas_*` operation with
the call's arguments; exactly when that returns -1 with `errno = EBADF`,
the resolved native implementation is invoked once with the identical
arguments and its result (status and error code) is returned verbatim;
in every other case the managed result is returned unchanged and the
native implementation is never invoked.  At most one fallback attempt
occurs per call. -/
theorem fallback_family_contract (w : World) (c : Call)
    (hc : c.op ∈ fallbackOps) :
    run w c =
      (let a := c.backendArgs w
       let t := w.tas c.op a
       if t.ret = -1 ∧ t.errno = EBADF then
         (w.libc c.op a, [Event.ensureInit, Event.tasCall c.op a,
            Event.libcCall c.op a])
       else
         (t, [Event.ensureInit, Event.tasCall c.op a]))
    ∧ (run w c).2.countP isLibcCall ≤ 1 := by
  cases c <;>
    first
      | (simp only [Call.op] at hc; exact absurd hc (by decide))
      | (refine ⟨rfl, ?_⟩
         dsimp only [run]
         split <;> simp [List.countP_cons, List.countP_nil, isLibcCall])

/-- Witness for C1 at `close(5)` with the sentinel-reporting world. -/
theorem fallback_family_contract_witness :
    (Call.close 5).op ∈ fallbackOps ∧
    (run w0 (Call.close 5) =
      (let a := (Call.close 5).backendArgs w0
       let t := w0.tas (Call.close 5).op a
       if t.ret = -1 ∧ t.errno = EBADF then
         (w0.libc (Call.close 5).op a,
          [Event.ensureInit, Event.tasCall (Call.close 5).op a,
           Event.libcCall (Call.close 5).op a])
       else
         (t, [Event.ensureInit, Event.tasCall (Call.close 5).op a]))
    ∧ (run w0 (Call.close 5)).2.countP isLibcCall ≤ 1) :=
  ⟨by decide, fallback_family_contract w0 (Call.close 5) (by decide)⟩

/-- C2: `socket(domain, type, protocol)` is routed to the managed stack
exactly when `domain = AF_INET` and `type = SOCK_STREAM`; every other
combination is forwarded to the native `socket` with the same arguments
and the managed stack is never invoked. -/
theorem socket_routing (w : World) (domain type protocol : Int) :
    run w (.socket domain type protocol) =
      (if domain = AF_INET ∧ type = SOCK_STREAM then
        (w.tas .socket [domain, type, protocol],
         [Event.ensureInit, Event.tasCall .socket [domain, type, protocol]])
      else
        (w.libc .socket [domain, type, protocol],
         [Event.ensureInit, Event.libcCall .socket [domain, type, protocol]])) := by
  simp only [run]
  by_cases h : domain = AF_INET ∧ type = SOCK_STREAM
  · rw [if_pos h,
      if_neg (show ¬(domain ≠ AF_INET ∨ type ≠ SOCK_STREAM) by tauto)]
  · rw [if_neg h,
      if_pos (show domain ≠ AF_INET ∨ type ≠ SOCK_STREAM by tauto)]

/-- C3: every readiness-multiplexing operation is routed directly to the
managed stack and returns its result; the native implementation is never
invoked, whatever the managed stack returns. -/
theorem readiness_no_fallback (w : World) (c : Call)
    (hc : c.op ∈ readinessOps) :
    run w c = (w.tas c.op (c.backendArgs w),
               [Event.tasCall c.op (c.backendArgs w)])
    ∧ (run w c).2.countP isLibcCall = 0 := by
  cases c <;>
    first
      | (simp only [Call.op] at hc; exact absurd hc (by decide))
      | exact ⟨rfl, rfl⟩

/-- Witness for C3 at `select(5, ...)`. -/
theorem readiness_no_fallback_witness :
    (Call.select 5 1 2 3 4).op ∈ readinessOps ∧
    (run w0 (Call.select 5 1 2 3 4) =
      (w0.tas (Call.select 5 1 2 3 4).op
        ((Call.select 5 1 2 3 4).backendArgs w0),
       [Event.tasCall (Call.select 5 1 2 3 4).op
        ((Call.select 5 1 2 3 4).backendArgs w0)])
    ∧ (run w0 (Call.select 5 1 2 3 4)).2.countP isLibcCall = 0) :=
  ⟨by decide, readiness_no_fallback w0 (Call.select 5 1 2 3 4) (by decide)⟩

/-- C4 counterexample: the interposed `select` invokes the managed
backend without ever calling `ensure_init`, refuting the claim that every
intercepted operation calls `ensure_init` before any backend operation. -/
theorem ensure_init_first_counterexample :
    Event.ensureInit ∉ (run w0 (Call.select 5 1 2 3 4)).2
    ∧ Event.tasCall .select [5, 1, 2, 3, 4] ∈
        (run w0 (Call.select 5 1 2 3 4)).2 := by
  decide

/-- C4 (amended): every intercepted operation outside the
readiness-multiplexing family invokes `ensure_init` before any backend
operation; the readiness-multiplexing operations never invoke
`ensure_init` at all. -/
theorem ensure_init_before_backend (w : World) (c : Call) :
    (c.op ∉ readinessOps → (run w c).2.head? = some Event.ensureInit)
    ∧ (c.op ∈ readinessOps → Event.ensureInit ∉ (run w c).2) := by
  constructor
  · intro h
    cases c <;>
      first
        | (simp only [Call.op] at h; exact absurd (by decide) h)
        | rfl
        | (dsimp only [run]; split <;> rfl)
  · intro h
    cases c <;>
      first
        | (simp only [Call.op] at h; exact absurd h (by decide))
        | simp [run]

/-- Witness for C4 (amended) at `close(5)`. -/
theorem ensure_init_before_backend_witness :
    (Call.close 5).op ∉ readinessOps ∧
    (run w0 (Call.close 5)).2.head? = some Event.ensureInit :=
  ⟨by decide, (ensure_init_before_backend w0 (Call.close 5)).1 (by decide)⟩

/-- C9: for `socket(AF_INET, SOCK_STREAM, protocol)` the managed stack's
result is returned unchanged and the native `socket` is never invoked,
whatever the managed stack returns — including failure with -1 and
`errno = EBADF`. -/
theorem socket_no_fallback (w : World) (protocol : Int) :
    run w (.socket AF_INET SOCK_STREAM protocol) =
      (w.tas .socket [AF_INET, SOCK_STREAM, protocol],
       [Event.ensureInit,
        Event.tasCall .socket [AF_INET, SOCK_STREAM, protocol]])
    ∧ (run w (.socket AF_INET SOCK_STREAM protocol)).2.countP isLibcCall
        = 0 :=
  ⟨rfl, rfl⟩

/-- C10: the interposed `fcntl` extracts exactly one variadic argument,
as an int, regardless of `cmd`, and forwards `[sockfd, cmd, arg]` to the
managed stack and — on the ownership sentinel — to the native `fcntl`;
variadic arguments beyond the first never influence the call. -/
theorem fcntl_single_vararg (w : World) (sockfd cmd : Int)
    (varargs : List Int) :
    run w (.fcntl sockfd cmd varargs) =
      (let arg := varargs.headD w.vaGarbage
       let t := w.tas .fcntl [sockfd, cmd, arg]
       if t.ret = -1 ∧ t.errno = EBADF then
         (w.libc .fcntl [sockfd, cmd, arg],
          [Event.ensureInit, Event.tasCall .fcntl [sockfd, cmd, arg],
           Event.libcCall .fcntl [sockfd, cmd, arg]])
       else
         (t, [Event.ensureInit, Event.tasCall .fcntl [sockfd, cmd, arg]]))
    ∧ (∀ v rest rest', run w (.fcntl sockfd cmd (v :: rest)) =
        run w (.fcntl sockfd cmd (v :: rest'))) :=
  ⟨rfl, fun _ _ _ => rfl⟩

/-! ### Helper lemmas for the `init` abort model -/

theorem resolveAll_error_iff (env : InitEnv) (l : List Op) :
    (∃ e, resolveAll env l = Except.error e) ↔
      ∃ s ∈ l, env.dlsym s = none := by
  induction l with
  | nil => simp [resolveAll]
  | cons s rest ih =>
      cases hd : env.dlsym s with
      | none =>
          constructor
          · intro _
            exact ⟨s, List.mem_cons_self s rest, hd⟩
          · intro _
            exact ⟨StartupFailure.dlsymFailed s,
              by simp [resolveAll, bind_symbol, hd]⟩
      | some p =>
          cases hr : resolveAll env rest with
          | error e =>
              constructor
              · intro _
                obtain ⟨s', hs', hnone⟩ := ih.mp ⟨e, hr⟩
                exact ⟨s', List.mem_cons_of_mem _ hs', hnone⟩
              · intro _
                exact ⟨e, by simp [resolveAll, bind_symbol, hd, hr]⟩
          | ok tbl =>
              have hl : resolveAll env (s :: rest) = .ok ((s, p) :: tbl) := by
                simp [resolveAll, bind_symbol, hd, hr]
              constructor
              · rintro ⟨e, he⟩
                rw [hl] at he
                cases he
              · rintro ⟨s', hs', hnone⟩
                rcases List.mem_cons.mp hs' with rfl | hmem
                · rw [hd] at hnone
                  cases hnone
                · obtain ⟨e, he⟩ := ih.mpr ⟨s', hmem, hnone⟩
                  rw [he] at hr
                  cases hr

theorem resolveAll_ok_spec (env : InitEnv) (l : List Op)
    (tbl : List (Op × Nat)) (h : resolveAll env l = Except.ok tbl) :
    tbl.length = l.length ∧
      ∀ s ∈ l, ∃ p, env.dlsym s = some p ∧ (s, p) ∈ tbl := by
  induction l generalizing tbl with
  | nil =>
      simp [resolveAll] at h
      subst h
      exact ⟨rfl, by simp⟩
  | cons s rest ih =>
      cases hd : env.dlsym s with
      | none =>
          rw [show resolveAll env (s :: rest) =
              Except.error (.dlsymFailed s) by
            simp [resolveAll, bind_symbol, hd]] at h
          cases h
      | some p =>
          cases hr : resolveAll env rest with
          | error e =>
              rw [show resolveAll env (s :: rest) = Except.error e by
                simp [resolveAll, bind_symbol, hd, hr]] at h
              cases h
          | ok tbl' =>
              rw [show resolveAll env (s :: rest) =
                  Except.ok ((s, p) :: tbl') by
                simp [resolveAll, bind_symbol, hd, hr]] at h
              cases h
              obtain ⟨hlen, hmem⟩ := ih tbl' hr
              refine ⟨by simp [hlen], ?_⟩
              intro s' hs'
              rcases List.mem_cons.mp hs' with rfl | hmem'
              · exact ⟨p, hd, List.mem_cons_self _ _⟩
              · obtain ⟨p', hp', hin⟩ := hmem s' hmem'
                exact ⟨p', hp', List.mem_cons_of_mem _ hin⟩

/-- C7: `init` aborts the process exactly when some native symbol fails
to resolve or `tas_init` returns nonzero, and no intercepted operation
can proceed on a partial table: a successful `init` returns a table with
an entry for every one of the 22 symbols.  No retry occurs. -/
theorem init_fail_fast (env : InitEnv) :
    ((∃ e, init env = Except.error e) ↔
      ((∃ s ∈ initSyms, env.dlsym s = none) ∨ env.tasInitRet ≠ 0))
    ∧ (∀ tbl, init env = Except.ok tbl →
        tbl.length = 22 ∧
        ∀ s ∈ initSyms, ∃ p, env.dlsym s = some p ∧ (s, p) ∈ tbl) := by
  constructor
  · constructor
    · rintro ⟨e, he⟩
      cases hr : resolveAll env initSyms with
      | error e' =>
          exact Or.inl ((resolveAll_error_iff env initSyms).mp ⟨e', hr⟩)
      | ok tbl =>
          by_cases ht : env.tasInitRet ≠ 0
          · exact Or.inr ht
          · exfalso
            have hok : init env = Except.ok tbl := by simp [init, hr, ht]
            rw [hok] at he
            cases he
    · intro h
      rcases h with ⟨s, hs, hnone⟩ | ht
      · obtain ⟨e, he⟩ :=
          (resolveAll_error_iff env initSyms).mpr ⟨s, hs, hnone⟩
        exact ⟨e, by simp [init, he]⟩
      · cases hr : resolveAll env initSyms with
        | error e => exact ⟨e, by simp [init, hr]⟩
        | ok tbl => exact ⟨.tasInitFailed, by simp [init, hr, ht]⟩
  · intro tbl h
    cases hr : resolveAll env initSyms with
    | error e => simp [init, hr] at h
    | ok tbl' =>
        by_cases ht : env.tasInitRet ≠ 0
        · simp [init, hr, ht] at h
        · have htbl : tbl' = tbl := by
            have hok : init env = Except.ok tbl' := by simp [init, hr, ht]
            rw [hok] at h
            cases h
            rfl
          subst htbl
          obtain ⟨hlen, hmem⟩ := resolveAll_ok_spec env initSyms tbl' hr
          exact ⟨by rw [hlen]; rfl, hmem⟩

/-- An environment in which every symbol resolution fails. -/
def envBad : InitEnv := ⟨fun _ => none, 0⟩

/-- Witness for C7: with every `dlsym` returning NULL, `init` aborts. -/
theorem init_fail_fast_witness :
    ∃ e, init envBad = Except.error e :=
  (init_fail_fast envBad).1.mpr (Or.inl ⟨Op.socket, by decide, rfl⟩)

/-- C5: the initialization body runs at most once in every reachable
configuration and, whenever `init_done` is observed set, exactly once;
`init_done` is never reset by any step; the initializer branch is entered
precisely through the fetch-and-add step that observes the counter's
zero-to-one transition; and a thread in the wait loop spins while
`init_done` is clear and leaves it only after observing `init_done`. -/
theorem init_exactly_once {n : Nat} (c : SysConfig n) (h : Reach n c) :
    c.1.initEntered ≤ 1
    ∧ (c.1.init_done = true → c.1.initEntered = 1)
    ∧ (∀ c', SysStep n c c' → c.1.init_done = true →
        c'.1.init_done = true)
    ∧ (∀ g t g' t', TStep g t g' t' → t'.phase = Phase.setIn →
        t.phase = Phase.fetchAdd ∧ g.init_cnt = 0 ∧ g'.init_cnt = 1)
    ∧ (∀ g g' t' b, TStep g ⟨Phase.waitLoop, b⟩ g' t' →
        (g.init_done = false → g' = g ∧ t' = ⟨Phase.waitLoop, b⟩)
        ∧ (g.init_done = true → g' = g ∧ t' = ⟨Phase.finished, b⟩)) := by
  obtain ⟨hA, hB, hC, hD, hE, hF, hG⟩ := inv_reach h
  refine ⟨hA, fun hd => (hF hd).1, ?_, ?_, ?_⟩
  · intro c' hs hd
    obtain ⟨g, ts, i, g', t', ht⟩ := hs
    exact tstep_done_mono ht hd
  · intro g t g' t' ht hp
    cases ht with
    | fastPath b hg => cases hp
    | slowPath b hg => cases hp
    | reentrantReturn => cases hp
    | notReentrant => cases hp
    | fetchAddZero b hg =>
        refine ⟨rfl, hg, ?_⟩
        show g.init_cnt + 1 = 1
        rw [hg]
    | fetchAddPos b hg => cases hp
    | setInInit b => cases hp
    | bindOne b k hk => cases hp
    | bindRest b => cases hp
    | tasInitOk b => cases hp
    | clearInInit b => cases hp
    | memBarrier b => cases hp
    | publishDone b => cases hp
    | spinYield b hg => cases hp
    | spinExit b hg => cases hp
  · intro g g' t' b ht
    cases ht with
    | spinYield hg =>
        rename_i hg2
        refine ⟨fun _ => ⟨rfl, rfl⟩, fun hd => ?_⟩
        rw [hg2] at hd
        cases hd
    | spinExit hg =>
        rename_i hg2
        refine ⟨fun hd => ?_, fun _ => ⟨rfl, rfl⟩⟩
        rw [hg2] at hd
        cases hd

/-- Witness for C5 at the initial two-thread configuration. -/
theorem init_exactly_once_witness :
    Reach 2 (startConfig 2) ∧ (startConfig 2).1.initEntered ≤ 1 :=
  ⟨Reach.refl, (init_exactly_once (startConfig 2) Reach.refl).1⟩

/-- C6: with the thread-local `in_init` flag set and `init_done` still
clear, `ensure_init` takes the reentrant exit: from entry it steps to the
reentrancy check and from there directly to completion, leaving the
shared state untouched (so the initialization body is not re-run), and no
other step — in particular none entering the wait loop — is possible from
those two program points. -/
theorem reentrant_immediate_return (g : GState) (h : g.init_done = false) :
    TStep g ⟨Phase.start, true⟩ g ⟨Phase.reentrantCheck, true⟩
    ∧ TStep g ⟨Phase.reentrantCheck, true⟩ g ⟨Phase.finished, true⟩
    ∧ (∀ g' t', TStep g ⟨Phase.start, true⟩ g' t' →
        g' = g ∧ t' = ⟨Phase.reentrantCheck, true⟩)
    ∧ (∀ g' t', TStep g ⟨Phase.reentrantCheck, true⟩ g' t' →
        g' = g ∧ t' = ⟨Phase.finished, true⟩) := by
  refine ⟨TStep.slowPath g true h, TStep.reentrantReturn g, ?_, ?_⟩
  · intro g' t' ht
    cases ht with
    | fastPath hg =>
        rename_i hg2
        rw [h] at hg2
        cases hg2
    | slowPath hg => exact ⟨rfl, rfl⟩
  · intro g' t' ht
    cases ht with
    | reentrantReturn => exact ⟨rfl, rfl⟩

/-- A concrete shared state with initialization still unpublished. -/
def g0 : GState := ⟨1, false, [], 1⟩

/-- Witness for C6 at a concrete unpublished state. -/
theorem reentrant_immediate_return_witness :
    g0.init_done = false ∧
    TStep g0 ⟨Phase.start, true⟩ g0 ⟨Phase.reentrantCheck, true⟩ :=
  ⟨rfl, (reentrant_immediate_return g0 rfl).1⟩

/-- C8: the handle table is always a prefix, in assignment order, of the
22 symbols; whenever `init_done` is set the table is complete; once
`init_done` holds, no step modifies the table and the flag stays set; the
step that publishes `init_done` finds the table already complete; and the
publishing program point is entered only through the memory-barrier
step. -/
theorem table_full_before_ready {n : Nat} (c : SysConfig n)
    (h : Reach n c) :
    (∃ k, k ≤ initSyms.length ∧ c.1.table = initSyms.take k)
    ∧ (c.1.init_done = true → c.1.table = initSyms)
    ∧ (∀ c', SysStep n c c' → c.1.init_done = true →
        c'.1.table = c.1.table ∧ c'.1.init_done = true)
    ∧ (∀ c', SysStep n c c' → c'.1.init_done = true →
        c.1.init_done = false → c.1.table = initSyms)
    ∧ (∀ g t g' t', TStep g t g' t' → t'.phase = Phase.publish →
        t.phase = Phase.membarrier ∧ g' = g)
    ∧ initSyms.length = 22 := by
  obtain ⟨hA, hB, hC, hD, hE, hF, hG⟩ := inv_reach h
  refine ⟨hG, fun hd => (hF hd).2, ?_, ?_, ?_, rfl⟩
  · intro c' hs hd
    obtain ⟨g, ts, i, g', t', ht⟩ := hs
    generalize hts : ts i = t0 at ht
    cases ht with
    | fastPath b hg => exact ⟨rfl, hd⟩
    | slowPath b hg => exact ⟨rfl, hd⟩
    | reentrantReturn => exact ⟨rfl, hd⟩
    | notReentrant => exact ⟨rfl, hd⟩
    | fetchAddZero b hg => exact ⟨rfl, hd⟩
    | fetchAddPos b hg => exact ⟨rfl, hd⟩
    | setInInit b => exact ⟨rfl, hd⟩
    | bindOne b k hk =>
        have hTI : ThreadInv g (ts i) := hD i
        rw [hts] at hTI
        obtain ⟨h1, h2, h3, h4⟩ := hTI
        have hdg : g.init_done = true := hd
        rw [h4] at hdg
        cases hdg
    | bindRest b => exact ⟨rfl, hd⟩
    | tasInitOk b => exact ⟨rfl, hd⟩
    | clearInInit b => exact ⟨rfl, hd⟩
    | memBarrier b => exact ⟨rfl, hd⟩
    | publishDone b => exact ⟨rfl, rfl⟩
    | spinYield b hg => exact ⟨rfl, hd⟩
    | spinExit b hg => exact ⟨rfl, hd⟩
  · intro c' hs hd' hd0
    obtain ⟨g, ts, i, g', t', ht⟩ := hs
    generalize hts : ts i = t0 at ht
    cases ht with
    | fastPath b hg =>
        have hx : g.init_done = true := hd'
        rw [hd0] at hx; cases hx
    | slowPath b hg =>
        have hx : g.init_done = true := hd'
        rw [hd0] at hx; cases hx
    | reentrantReturn =>
        have hx : g.init_done = true := hd'
        rw [hd0] at hx; cases hx
    | notReentrant =>
        have hx : g.init_done = true := hd'
        rw [hd0] at hx; cases hx
    | fetchAddZero b hg =>
        have hx : g.init_done = true := hd'
        rw [hd0] at hx; cases hx
    | fetchAddPos b hg =>
        have hx : g.init_done = true := hd'
        rw [hd0] at hx; cases hx
    | setInInit b =>
        have hx : g.init_done = true := hd'
        rw [hd0] at hx; cases hx
    | bindOne b k hk =>
        have hx : g.init_done = true := hd'
        rw [hd0] at hx; cases hx
    | bindRest b =>
        have hx : g.init_done = true := hd'
        rw [hd0] at hx; cases hx
    | tasInitOk b =>
        have hx : g.init_done = true := hd'
        rw [hd0] at hx; cases hx
    | clearInInit b =>
        have hx : g.init_done = true := hd'
        rw [hd0] at hx; cases hx
    | memBarrier b =>
        have hx : g.init_done = true := hd'
        rw [hd0] at hx; cases hx
    | publishDone b =>
        have hTI : ThreadInv g (ts i) := hD i
        rw [hts] at hTI
        obtain ⟨h1, h2, h3⟩ := hTI
        exact h2
    | spinYield b hg =>
        have hx : g.init_done = true := hd'
        rw [hd0] at hx; cases hx
    | spinExit b hg =>
        have hx : g.init_done = true := hd'
        rw [hd0] at hx; cases hx
  · intro g t g' t' ht hp
    cases ht with
    | fastPath b hg => cases hp
    | slowPath b hg => cases hp
    | reentrantReturn => cases hp
    | notReentrant => cases hp
    | fetchAddZero b hg => cases hp
    | fetchAddPos b hg => cases hp
    | setInInit b => cases hp
    | bindOne b k hk => cases hp
    | bindRest b => cases hp
    | tasInitOk b => cases hp
    | clearInInit b => cases hp
    | memBarrier b => exact ⟨rfl, rfl⟩
    | publishDone b => cases hp
    | spinYield b hg => cases hp
    | spinExit b hg => cases hp

/-- Witness for C8 at the initial two-thread configuration. -/
theorem table_full_before_ready_witness :
    Reach 2 (startConfig 2) ∧
    (∃ k, k ≤ initSyms.length ∧
      (startConfig 2).1.table = initSyms.take k) :=
  ⟨Reach.refl, (table_full_before_ready (startConfig 2) Reach.refl).1⟩

end Interpose
